import Mathlib

/-!
# Verification of the file-monitor change recorder and report scheduler

Shallow embedding of `src/file_monitor.py`.  Points in time (Python
`datetime.datetime`, local time) are modelled as seconds on a linear scale
(`Nat`); a calendar date is the day number `t / 86400`.  The Python dict
`self.changes` (insertion ordered, keyed by the `'%Y-%m-%d'` string of the
timestamp, which is in bijection with the day number) is modelled as an
insertion-ordered association list keyed by day number.  Python's stable
`sorted` is modelled by `List.insertionSort`, which is also stable, so both
produce the same output list.
-/

namespace FileMonitor

open List

/-- `ChangeRecord` (file_monitor.py:22-29): one observed filesystem event. -/
structure ChangeRecord where
  timestamp : Nat
  event_type : String
  path : String
  is_directory : Bool
  old_path : Option String
deriving Repr, DecidableEq

/-- `self.changes` (file_monitor.py:37): insertion-ordered map from date key to
the list of records of that day. -/
abbrev Store := List (Nat × List ChangeRecord)

/-- The date key `change.timestamp.strftime('%Y-%m-%d')` (file_monitor.py:68),
as the day number of the timestamp. -/
def dateKey (t : Nat) : Nat := t / 86400

/-- `self.changes[date_key].append(change)` on a `defaultdict(list)`
(file_monitor.py:69): append to the existing bucket for the key, or create a
fresh bucket at the end of the (insertion-ordered) dict. -/
def appendToBucket : Store → Nat → ChangeRecord → Store
  | [], k, c => [(k, [c])]
  | b :: s, k, c => if b.1 = k then (b.1, b.2 ++ [c]) :: s else b :: appendToBucket s k c

/-- `FileMonitorHandler._record_change` (file_monitor.py:57-69); the current
time `datetime.datetime.now()` is passed explicitly as `now`. -/
def record_change (s : Store) (now : Nat) (event_type : String) (path : String)
    (is_directory : Bool) (old_path : Option String) : Store :=
  appendToBucket s (dateKey now) ⟨now, event_type, path, is_directory, old_path⟩

/-- All records of the store, bucket by bucket in dict order — the list the
loop of `get_changes_since_last_report` (file_monitor.py:75-78) traverses. -/
def allRecords (s : Store) : List ChangeRecord := (s.map Prod.snd).flatten

/-- The sort key comparison of `sorted(all_changes, key=lambda x: x.timestamp)`
(file_monitor.py:79). -/
def tsLE (a b : ChangeRecord) : Prop := a.timestamp ≤ b.timestamp

instance : DecidableRel tsLE :=
  fun a b => inferInstanceAs (Decidable (a.timestamp ≤ b.timestamp))

instance : IsTotal ChangeRecord tsLE := ⟨fun a b => Nat.le_total a.timestamp b.timestamp⟩

instance : IsTrans ChangeRecord tsLE := ⟨fun _ _ _ => Nat.le_trans⟩

/-- `FileMonitorHandler.get_changes_since_last_report` (file_monitor.py:71-79):
collect the records with `change.timestamp > last_report_time` across all
buckets, then sort ascending by timestamp (stably). -/
def get_changes_since_last_report (s : Store) (last_report_time : Nat) :
    List ChangeRecord :=
  List.insertionSort tsLE
    ((allRecords s).filter fun c => decide (last_report_time < c.timestamp))

/-- `FileMonitorHandler.clear_old_changes` (file_monitor.py:81-92):
`cutoff_date = datetime.datetime.now() - timedelta(days=days_to_keep)` keeps
its time-of-day component; a bucket is removed when the midnight of its date
(`strptime(date_str, '%Y-%m-%d')`) is strictly before that cutoff.  The
subtraction is carried out in `Int` because the Python cutoff can lie before
the epoch of the scale. -/
def clear_old_changes (s : Store) (now : Nat) (days_to_keep : Nat) : Store :=
  s.filter fun b =>
    decide (¬ ((b.1 : Int) * 86400 < (now : Int) - (days_to_keep : Int) * 86400))

/-- `FileMonitor.REPORT_HOURS` (file_monitor.py:102). -/
def REPORT_HOURS : List Nat := [6, 10, 14, 17]

/-- `datetime.datetime.combine(day, datetime.time(hour, 0))`
(file_monitor.py:213,217). -/
def combineAtHour (day h : Nat) : Nat := day * 86400 + h * 3600

/-- `FileMonitor._get_next_report_time` (file_monitor.py:205-217): the first
report hour strictly greater than the current hour today, else 6:00 tomorrow
(`REPORT_HOURS[0]`). -/
def get_next_report_time (t : Nat) : Nat :=
  match REPORT_HOURS.find? (fun h => decide (t % 86400 / 3600 < h)) with
  | some h => combineAtHour (t / 86400) h
  | none => combineAtHour (t / 86400 + 1) (REPORT_HOURS.headD 0)

/-- Gregorian civil calendar: day number since 1970-01-01 to
(year, month, day).  The standard civil-from-days computation; models the
date components Python's `strftime` reads off a `datetime`. -/
def civilFromDays (z0 : Nat) : Nat × Nat × Nat :=
  let z := z0 + 719468
  let era := z / 146097
  let doe := z % 146097
  let yoe := (doe - doe / 1460 + doe / 36524 - doe / 146096) / 365
  let y := yoe + era * 400
  let doy := doe - (365 * yoe + yoe / 4 - yoe / 100)
  let mp := (5 * doy + 2) / 153
  let d := doy - (153 * mp + 2) / 5 + 1
  let m := if mp < 10 then mp + 3 else mp - 9
  (if m ≤ 2 then y + 1 else y, m, d)

/-- Zero padding to two digits, as in the `%m %d %H %M` strftime fields. -/
def pad2 (n : Nat) : String := if n < 10 then "0" ++ toString n else toString n

/-- `change.timestamp.strftime('%m/%d %H:%M')` (file_monitor.py:250). -/
def fmtMDHM (t : Nat) : String :=
  let ymd := civilFromDays (t / 86400)
  pad2 ymd.2.1 ++ "/" ++ pad2 ymd.2.2 ++ " " ++ pad2 (t % 86400 / 3600) ++ ":" ++
    pad2 (t % 3600 / 60)

/-- `current_time.strftime('%Y年%m月%d日 %H:%M')` (file_monitor.py:225). -/
def fmtYMDHM (t : Nat) : String :=
  let ymd := civilFromDays (t / 86400)
  toString ymd.1 ++ "年" ++ pad2 ymd.2.1 ++ "月" ++ pad2 ymd.2.2 ++ "日 " ++
    pad2 (t % 86400 / 3600) ++ ":" ++ pad2 (t % 3600 / 60)

/-- `type_names.get(event_type, event_type)` (file_monitor.py:240-245,248). -/
def typeName (et : String) : String :=
  if et = "created" then "新規作成"
  else if et = "modified" then "更新"
  else if et = "deleted" then "削除"
  else if et = "moved" then "移動・リネーム"
  else et

/-- One step of `by_type[change.event_type].append(change)` on a
`defaultdict(list)` (file_monitor.py:235-237): append to the group of the
record's kind, creating it at the end of the insertion-ordered dict when
absent. -/
def addToGroup (acc : List (String × List ChangeRecord)) (c : ChangeRecord) :
    List (String × List ChangeRecord) :=
  if c.event_type ∈ acc.map Prod.fst then
    acc.map fun g => if g.1 = c.event_type then (g.1, g.2 ++ [c]) else g
  else acc ++ [(c.event_type, [c])]

/-- `by_type` built by the loop of file_monitor.py:235-237, in dict
(= first-insertion) order. -/
def groupByType (changes : List ChangeRecord) : List (String × List ChangeRecord) :=
  changes.foldl addToGroup []

/-- `print("="*70)` separator (file_monitor.py:224,226,258). -/
def sepLine : String := String.mk (List.replicate 70 '=')

/-- `print("-" * 50)` separator (file_monitor.py:232). -/
def dashLine : String := String.mk (List.replicate 50 '-')

/-- The line printed for one record (file_monitor.py:249-256); for a `moved`
record the old path, an arrow, then the new path.  Python interpolates a
missing `old_path` as the string `None`. -/
def changeLine (c : ChangeRecord) : String :=
  let time_str := fmtMDHM c.timestamp
  let type_str := if c.is_directory then "フォルダ" else "ファイル"
  if c.event_type = "moved" then
    "  " ++ time_str ++ " [" ++ type_str ++ "] " ++ c.old_path.getD "None" ++ " → " ++ c.path
  else
    "  " ++ time_str ++ " [" ++ type_str ++ "] " ++ c.path

/-- The lines printed for one kind group (file_monitor.py:247-256): the group
header with the kind label and count, then one line per record. -/
def groupLines (g : String × List ChangeRecord) : List String :=
  ("\n■ " ++ typeName g.1 ++ " (" ++ toString g.2.length ++ "件)") :: g.2.map changeLine

/-- Everything `_generate_report` prints (file_monitor.py:224-258), one list
entry per `print` call. -/
def reportLines (now : Nat) (changes : List ChangeRecord) : List String :=
  ["\n" ++ sepLine, "【定時レポート】 " ++ fmtYMDHM now, sepLine] ++
    (if changes.isEmpty then ["変化なし"]
     else ("検出された変更: " ++ toString changes.length ++ "件") :: dashLine ::
       (groupByType changes).flatMap groupLines) ++
    [sepLine]

/-- Outcome of `FileMonitor._generate_report` (file_monitor.py:219-261):
`current_time = datetime.datetime.now()` is captured on entry; the new
records are read with the old watermark; after printing, the last statement
sets `self.last_report_time = current_time`. -/
structure ReportResult where
  lines : List String
  newLastReportTime : Nat
deriving Repr, DecidableEq

/-- `FileMonitor._generate_report` (file_monitor.py:219-261) as a function of
the store, the current watermark and the entry time `now`. -/
def generate_report (s : Store) (last_report_time : Nat) (now : Nat) : ReportResult :=
  ⟨reportLines now (get_changes_since_last_report s last_report_time), now⟩

/-- How the call of `FileMonitor._main_loop` inside `FileMonitor.start` ends
(file_monitor.py:141-146): normal return, `KeyboardInterrupt`, or an
unexpected exception carrying a message. -/
inductive LoopOutcome where
  | normal
  | keyboardInterrupt
  | exn (msg : String)
deriving Repr, DecidableEq

/-- The monitor state that the error handling of `FileMonitor.start` touches:
the `running` flag, whether `self.observer` is set, whether it has been
stopped, and the messages printed so far. -/
structure RunState where
  running : Bool
  observerSome : Bool
  observerStopped : Bool
  printed : List String
deriving Repr, DecidableEq

/-- `FileMonitor.stop` (file_monitor.py:152-163): a no-op unless `running`;
otherwise clear `running`, stop the observer when one is set, and print the
stop message. -/
def stop (st : RunState) : RunState :=
  if st.running = false then st
  else
    ⟨false, st.observerSome, (if st.observerSome then true else st.observerStopped),
      st.printed ++ ["ファイル監視を停止しました。"]⟩

/-- The `try/except/finally` of `FileMonitor.start` (file_monitor.py:123-148)
around the main thread's work, applied to the outcome of `_main_loop`: a
`KeyboardInterrupt` or an unexpected exception prints its message, and
`stop()` runs in every case. -/
def startHandleOutcome (o : LoopOutcome) (st : RunState) : RunState :=
  match o with
  | .normal => stop st
  | .keyboardInterrupt =>
      stop ⟨st.running, st.observerSome, st.observerStopped,
        st.printed ++ ["\nキーボード割り込みにより監視を停止します。"]⟩
  | .exn msg =>
      stop ⟨st.running, st.observerSome, st.observerStopped,
        st.printed ++ ["エラー: " ++ msg]⟩

/-- How the report thread ends. -/
inductive ThreadResult where
  | finished
  | unhandled (msg : String)
deriving Repr, DecidableEq

/-- `FileMonitor._report_scheduler` (file_monitor.py:185-203) is the target of
a separate daemon thread (file_monitor.py:137) and contains no `try/except`,
nor does `_generate_report`; an exception raised during report generation
therefore propagates out of the thread body unhandled. -/
def reportThreadOutcome (o : LoopOutcome) : ThreadResult :=
  match o with
  | .exn msg => .unhandled msg
  | _ => .finished

/-- In Python an exception escaping a `threading.Thread` target terminates
only that thread: no handler of `FileMonitor.start` (which guards the main
thread only) runs, `stop()` is not called, and the main-thread state is left
as it was. -/
def afterReportGenerationExn (st : RunState) (msg : String) : RunState × ThreadResult :=
  (st, reportThreadOutcome (.exn msg))

/-! ## Helper lemmas -/

/-- The keys of the groups built by `addToGroup`: unchanged when the kind is
already present, otherwise the kind is appended at the end. -/
lemma addToGroup_keys (acc : List (String × List ChangeRecord)) (c : ChangeRecord) :
    (addToGroup acc c).map Prod.fst =
      if c.event_type ∈ acc.map Prod.fst then acc.map Prod.fst
      else acc.map Prod.fst ++ [c.event_type] := by
  unfold addToGroup
  by_cases h : c.event_type ∈ acc.map Prod.fst
  · simp only [h, if_true, List.map_map]
    refine List.map_congr_left fun g _ => ?_
    by_cases hg : g.1 = c.event_type <;> simp [hg]
  · simp [h]

/-- Key order of the whole grouping fold, relative to the first-seen fold on
the kinds alone. -/
lemma foldl_addToGroup_keys (cs : List ChangeRecord)
    (acc : List (String × List ChangeRecord)) :
    (cs.foldl addToGroup acc).map Prod.fst =
      cs.foldl (fun ks c => if c.event_type ∈ ks then ks else ks ++ [c.event_type])
        (acc.map Prod.fst) := by
  induction cs generalizing acc with
  | nil => rfl
  | cons c cs ih =>
      simp only [List.foldl_cons]
      rw [ih, addToGroup_keys]

/-! ## Claims -/

/-- C1.  `get_changes_since_last_report(t)` returns exactly the records across
all buckets with timestamp strictly greater than `t` (a permutation of, and
the same membership as, the filtered record multiset), sorted in
non-decreasing timestamp order — for every store, hence regardless of the
order and the buckets in which the records were inserted. -/
theorem read_since_exact_and_sorted (s : Store) (t : Nat) :
    (get_changes_since_last_report s t).Perm
      ((allRecords s).filter fun c => decide (t < c.timestamp)) ∧
    List.Pairwise (fun a b : ChangeRecord => a.timestamp ≤ b.timestamp)
      (get_changes_since_last_report s t) ∧
    ∀ c : ChangeRecord, c ∈ get_changes_since_last_report s t ↔
      c ∈ allRecords s ∧ t < c.timestamp := by
  refine ⟨List.perm_insertionSort tsLE _, List.sorted_insertionSort tsLE _, ?_⟩
  intro c
  simp [get_changes_since_last_report, List.mem_filter]

/-- C2.  `_generate_report` sets the watermark to the time the report was
generated (`now()`, captured at entry), for every store and old watermark —
so it does not depend on any event timestamp — and every record whose
timestamp is greater than the new watermark (in particular one recorded while
the report was being rendered) is returned by a later
`get_changes_since_last_report` with that watermark rather than lost. -/
theorem watermark_is_generation_time (s : Store) (last_report_time now : Nat) :
    (generate_report s last_report_time now).newLastReportTime = now ∧
    ∀ (s2 : Store) (c : ChangeRecord), c ∈ allRecords s2 → now < c.timestamp →
      c ∈ get_changes_since_last_report s2
        (generate_report s last_report_time now).newLastReportTime := by
  refine ⟨rfl, ?_⟩
  intro s2 c hc hlt
  simp [generate_report, get_changes_since_last_report, List.mem_filter, hc, hlt]

theorem watermark_is_generation_time_witness :
    (generate_report [] 0 50).newLastReportTime = 50 ∧
    (⟨60, "created", "/w", false, none⟩ : ChangeRecord) ∈
      get_changes_since_last_report [(0, [⟨60, "created", "/w", false, none⟩])] 50 :=
  ⟨(watermark_is_generation_time [] 0 50).1,
   (watermark_is_generation_time [] 0 50).2 [(0, [⟨60, "created", "/w", false, none⟩])]
     ⟨60, "created", "/w", false, none⟩ (by decide) (by decide)⟩

/-- C4, counterexample.  At `now` one second past midnight of day 8, the
bucket of day 1 is dated exactly `today - 7` — not strictly before it — yet
`clear_old_changes` with `days_to_keep = 7` removes it, because the cutoff
`now() - timedelta(days=7)` keeps the time-of-day component and the bucket's
midnight lies strictly before it. -/
theorem trim_boundary_counterexample :
    ¬ (1 < dateKey (8 * 86400 + 1) - 7) ∧
    clear_old_changes [(1, [⟨86400 + 100, "created", "/x", false, none⟩])]
      (8 * 86400 + 1) 7 = [] := by
  decide

/-- C4, amended.  `clear_old_changes(retain_days)` removes exactly the buckets
whose date's midnight is strictly before `now - retain_days` (a datetime with
time of day): a bucket survives, unchanged, precisely when its date is after
`today - retain_days`, or equal to it while the current time is exactly
midnight.  In particular a bucket dated 10 days before today is removed and
one dated 5 days before today is retained. -/
theorem trim_removes_before_cutoff_datetime (s : Store) (now d : Nat)
    (b : Nat × List ChangeRecord) :
    b ∈ clear_old_changes s now d ↔
      b ∈ s ∧ (dateKey now < b.1 + d ∨ (dateKey now = b.1 + d ∧ now % 86400 = 0)) := by
  simp only [clear_old_changes, List.mem_filter, decide_eq_true_eq, dateKey]
  constructor
  · rintro ⟨hb, h⟩
    exact ⟨hb, by omega⟩
  · rintro ⟨hb, h⟩
    refine ⟨hb, by omega⟩

/-- C7.  Trimming with a 7-day retention twice in a row (no new events, same
current time) yields the same bucket set as trimming once. -/
theorem trim_idempotent (s : Store) (now : Nat) :
    clear_old_changes (clear_old_changes s now 7) now 7 = clear_old_changes s now 7 := by
  simp [clear_old_changes, List.filter_filter]

/-- C8 scenario store: one `created` for `/a/b.txt`, one `deleted` for
`/a/c.txt`, one `moved` from `/a/old.txt` to `/a/new.txt`, recorded in that
order, all with timestamps strictly after the watermark `1728000100`. -/
def mixedStore : Store :=
  record_change
    (record_change
      (record_change [] 1728000200 "created" "/a/b.txt" false none)
      1728000300 "deleted" "/a/c.txt" false none)
    1728000400 "moved" "/a/new.txt" false (some "/a/old.txt")

/-- The report the scheduler prints for the C8 scenario. -/
def mixedReport : List String :=
  reportLines 1728000500 (get_changes_since_last_report mixedStore 1728000100)

/-- C8.  On the mixed batch, report generation prints exactly three group
headers, each with count 1, and the moved record's line shows the old path,
an arrow, then the new path. -/
theorem mixed_batch_report :
    mixedReport.countP (fun l => decide (l.toList.take 3 = ['\n', '■', ' '])) = 3 ∧
    "\n■ 新規作成 (1件)" ∈ mixedReport ∧
    "\n■ 削除 (1件)" ∈ mixedReport ∧
    "\n■ 移動・リネーム (1件)" ∈ mixedReport ∧
    "  10/04 00:06 [ファイル] /a/old.txt → /a/new.txt" ∈ mixedReport := by
  decide

/-- The order the spec describes for the report's kind groups: each kind in
the order of its first appearance in the batch. -/
def specFirstSeenKindOrder (ks : List String) : List String :=
  ks.foldl (fun acc k => if k ∈ acc then acc else acc ++ [k]) []

/-- C9.  Within a report, the per-kind groups appear in the order in which
each kind first occurs in the timestamp-sorted batch of new records. -/
theorem group_order_is_first_seen (s : Store) (t : Nat) :
    (groupByType (get_changes_since_last_report s t)).map Prod.fst =
      specFirstSeenKindOrder
        ((get_changes_since_last_report s t).map fun c => c.event_type) := by
  unfold groupByType specFirstSeenKindOrder
  rw [List.foldl_map]
  exact foldl_addToGroup_keys _ []

/-- Closed form of `get_next_report_time`: the branch the `for hour in
REPORT_HOURS` loop takes, by the current hour. -/
lemma get_next_report_time_eq (t : Nat) :
    get_next_report_time t =
      if t % 86400 / 3600 < 6 then t / 86400 * 86400 + 6 * 3600
      else if t % 86400 / 3600 < 10 then t / 86400 * 86400 + 10 * 3600
      else if t % 86400 / 3600 < 14 then t / 86400 * 86400 + 14 * 3600
      else if t % 86400 / 3600 < 17 then t / 86400 * 86400 + 17 * 3600
      else (t / 86400 + 1) * 86400 + 6 * 3600 := by
  unfold get_next_report_time REPORT_HOURS combineAtHour
  by_cases h6 : t % 86400 / 3600 < 6
  · simp [List.find?, h6]
  · by_cases h10 : t % 86400 / 3600 < 10
    · simp [List.find?, h6, h10]
    · by_cases h14 : t % 86400 / 3600 < 14
      · simp [List.find?, h6, h10, h14]
      · by_cases h17 : t % 86400 / 3600 < 17
        · simp [List.find?, h6, h10, h14, h17]
        · simp [List.find?, h6, h10, h14, h17]

/-- C3.  `_get_next_report_time` returns a time strictly greater than the
current time, with minute and second zero and its hour one of the four
trigger hours, and it is the earliest such time; at exactly 17:00:00 it
returns 06:00 of the following day. -/
theorem next_report_time_correct (t : Nat) :
    t < get_next_report_time t ∧
    get_next_report_time t % 3600 = 0 ∧
    get_next_report_time t % 86400 / 3600 ∈ REPORT_HOURS ∧
    (∀ m, t < m → m % 3600 = 0 → m % 86400 / 3600 ∈ REPORT_HOURS →
      get_next_report_time t ≤ m) ∧
    (t % 86400 = 17 * 3600 → get_next_report_time t = (t / 86400 + 1) * 86400 + 6 * 3600) := by
  simp only [get_next_report_time_eq t, REPORT_HOURS, List.mem_cons, List.not_mem_nil,
    or_false]
  by_cases h6 : t % 86400 / 3600 < 6
  · simp only [if_pos h6]
    exact ⟨by omega, by omega, by omega, fun m h1 h2 h3 => by omega, by omega⟩
  · simp only [if_neg h6]
    by_cases h10 : t % 86400 / 3600 < 10
    · simp only [if_pos h10]
      exact ⟨by omega, by omega, by omega, fun m h1 h2 h3 => by omega, by omega⟩
    · simp only [if_neg h10]
      by_cases h14 : t % 86400 / 3600 < 14
      · simp only [if_pos h14]
        exact ⟨by omega, by omega, by omega, fun m h1 h2 h3 => by omega, by omega⟩
      · simp only [if_neg h14]
        by_cases h17 : t % 86400 / 3600 < 17
        · simp only [if_pos h17]
          exact ⟨by omega, by omega, by omega, fun m h1 h2 h3 => by omega, by omega⟩
        · simp only [if_neg h17]
          exact ⟨by omega, by omega, by omega, fun m h1 h2 h3 => by omega, fun _ => trivial⟩

theorem next_report_time_correct_witness :
    get_next_report_time 61200 ≤ 108000 ∧ get_next_report_time 61200 = 108000 :=
  ⟨(next_report_time_correct 61200).2.2.2.1 108000 (by decide) (by decide) (by decide),
   (next_report_time_correct 61200).2.2.2.2 (by decide)⟩

/-! ## The bucket invariant (C6) -/

/-- The invariant of the change store: every record sits in the bucket keyed
by the calendar date of its own timestamp, and no two buckets share a key. -/
def WFStore (s : Store) : Prop :=
  (∀ b ∈ s, ∀ c ∈ b.2, dateKey c.timestamp = b.1) ∧ (s.map Prod.fst).Nodup

instance (s : Store) : Decidable (WFStore s) := by
  unfold WFStore
  infer_instance

/-- `appendToBucket` puts the new record into the bucket of the requested
key, creating that bucket when absent. -/
lemma appendToBucket_mem_new (s : Store) (k : Nat) (c : ChangeRecord) :
    ∃ recs, (k, recs) ∈ appendToBucket s k c ∧ c ∈ recs := by
  induction s with
  | nil => exact ⟨[c], by simp [appendToBucket], by simp⟩
  | cons b0 s ih =>
      obtain ⟨k0, recs0⟩ := b0
      by_cases h0 : k0 = k
      · subst h0
        exact ⟨recs0 ++ [c], by simp [appendToBucket], by simp⟩
      · obtain ⟨recs, hm, hc⟩ := ih
        exact ⟨recs, by simp [appendToBucket, h0, hm], hc⟩

/-- `appendToBucket` keeps every record already stored, in a bucket of the
same key. -/
lemma appendToBucket_mem_old (s : Store) (k : Nat) (c : ChangeRecord) :
    ∀ b ∈ s, ∀ x ∈ b.2, ∃ recs, (b.1, recs) ∈ appendToBucket s k c ∧ x ∈ recs := by
  induction s with
  | nil => intro b hb; cases hb
  | cons b0 s ih =>
      intro b hb x hx
      rcases List.mem_cons.mp hb with rfl | hb2
      · by_cases h0 : b.1 = k
        · refine ⟨b.2 ++ [c], ?_, by simp [hx]⟩
          simp [appendToBucket, h0]
        · refine ⟨b.2, ?_, hx⟩
          simp [appendToBucket, h0]
      · by_cases h0 : b0.1 = k
        · refine ⟨b.2, ?_, hx⟩
          simp only [appendToBucket, if_pos h0]
          exact List.mem_cons_of_mem _ (by simpa using hb2)
        · obtain ⟨recs, hm, hx2⟩ := ih b hb2 x hx
          refine ⟨recs, ?_, hx2⟩
          simp only [appendToBucket, if_neg h0]
          exact List.mem_cons_of_mem _ hm

/-- Every bucket of `appendToBucket s k c` is an old bucket, the new bucket
`(k, [c])`, or an old bucket of key `k` with `c` appended. -/
lemma appendToBucket_structure (s : Store) (k : Nat) (c : ChangeRecord) :
    ∀ b ∈ appendToBucket s k c,
      b ∈ s ∨ b = (k, [c]) ∨ ∃ recs0, (k, recs0) ∈ s ∧ b = (k, recs0 ++ [c]) := by
  induction s with
  | nil =>
      intro b hb
      simp only [appendToBucket, List.mem_singleton] at hb
      exact Or.inr (Or.inl hb)
  | cons b0 s ih =>
      intro b hb
      obtain ⟨k0, recs0⟩ := b0
      by_cases h0 : k0 = k
      · subst h0
        simp only [appendToBucket, if_pos rfl] at hb
        rcases List.mem_cons.mp hb with rfl | hb2
        · exact Or.inr (Or.inr ⟨recs0, List.mem_cons_self _ _, rfl⟩)
        · exact Or.inl (List.mem_cons_of_mem _ hb2)
      · simp only [appendToBucket, if_neg h0] at hb
        rcases List.mem_cons.mp hb with rfl | hb2
        · exact Or.inl (List.mem_cons_self _ _)
        · rcases ih b hb2 with h | h | ⟨r0, hr0, hbeq⟩
          · exact Or.inl (List.mem_cons_of_mem _ h)
          · exact Or.inr (Or.inl h)
          · exact Or.inr (Or.inr ⟨r0, List.mem_cons_of_mem _ hr0, hbeq⟩)

/-- Key list of `appendToBucket`: unchanged when the key exists, otherwise
the key is appended at the end. -/
lemma appendToBucket_keysEq (s : Store) (k : Nat) (c : ChangeRecord) :
    (appendToBucket s k c).map Prod.fst =
      if k ∈ s.map Prod.fst then s.map Prod.fst else s.map Prod.fst ++ [k] := by
  induction s with
  | nil => simp [appendToBucket]
  | cons b0 s ih =>
      obtain ⟨k0, recs0⟩ := b0
      by_cases h0 : k0 = k
      · subst h0
        simp [appendToBucket]
      · simp only [appendToBucket, if_neg h0, List.map_cons]
        rw [ih]
        by_cases hk : k ∈ s.map Prod.fst
        · rw [if_pos hk, if_pos (List.mem_cons_of_mem _ hk)]
        · rw [if_neg hk, if_neg ?_]
          · simp
          · intro hmem
            rcases List.mem_cons.mp hmem with h | h
            · exact h0 h.symm
            · exact hk h

/-- `_record_change` preserves the bucket invariant. -/
lemma WF_record (s : Store) (now : Nat) (et p : String) (dir : Bool)
    (op : Option String) (h : WFStore s) :
    WFStore (record_change s now et p dir op) := by
  constructor
  · intro b hb x hx
    rcases appendToBucket_structure s (dateKey now) _ b hb with hmem | rfl | ⟨recs0, hr0, rfl⟩
    · exact h.1 b hmem x hx
    · simp only [List.mem_singleton] at hx
      subst hx
      rfl
    · rcases List.mem_append.mp hx with hx0 | hxc
      · exact h.1 (dateKey now, recs0) hr0 x hx0
      · simp only [List.mem_singleton] at hxc
        subst hxc
        rfl
  · rw [record_change, appendToBucket_keysEq]
    split_ifs with hk
    · exact h.2
    · simp [List.nodup_append, h.2, hk]

/-- `clear_old_changes` preserves the bucket invariant. -/
lemma WF_trim (s : Store) (now d : Nat) (h : WFStore s) :
    WFStore (clear_old_changes s now d) := by
  constructor
  · intro b hb x hx
    exact h.1 b (List.mem_of_mem_filter hb) x hx
  · exact h.2.sublist ((List.filter_sublist s).map Prod.fst)

/-- C6.  Every recorder operation preserves the invariant that each record
lives in exactly one bucket, the one keyed by the date of its timestamp:
`record` appends a record timestamped `now` to today's bucket (creating it
if absent) and keeps every stored record in its bucket, and `trim` removes
only whole buckets. -/
theorem record_and_trim_preserve_bucket_invariant (s : Store) (now d : Nat)
    (et p : String) (dir : Bool) (op : Option String) (h : WFStore s) :
    WFStore (record_change s now et p dir op) ∧
    WFStore (clear_old_changes s now d) ∧
    (∃ recs, (dateKey now, recs) ∈ record_change s now et p dir op ∧
      (⟨now, et, p, dir, op⟩ : ChangeRecord) ∈ recs) ∧
    (∀ b ∈ s, ∀ x ∈ b.2, ∃ recs, (b.1, recs) ∈ record_change s now et p dir op ∧ x ∈ recs) ∧
    (∀ b ∈ clear_old_changes s now d, b ∈ s) :=
  ⟨WF_record s now et p dir op h, WF_trim s now d h,
    appendToBucket_mem_new s (dateKey now) _,
    appendToBucket_mem_old s (dateKey now) _,
    fun _ hb => List.mem_of_mem_filter hb⟩

theorem record_and_trim_preserve_bucket_invariant_witness :
    WFStore (record_change [(0, [⟨100, "created", "/x", false, none⟩])] 172805
      "deleted" "/y" false none) ∧
    WFStore (clear_old_changes [(0, [⟨100, "created", "/x", false, none⟩])] 172805 7) :=
  ⟨(record_and_trim_preserve_bucket_invariant [(0, [⟨100, "created", "/x", false, none⟩])]
      172805 7 "deleted" "/y" false none (by decide)).1,
   (record_and_trim_preserve_bucket_invariant [(0, [⟨100, "created", "/x", false, none⟩])]
      172805 7 "deleted" "/y" false none (by decide)).2.1⟩

/-! ## Antitone reads (C10) -/

/-- A stable insertion sort is monotone with respect to the sublist order. -/
lemma insertionSort_sublist_of_sublist {α : Type} (r : α → α → Prop) [DecidableRel r]
    [IsTotal α r] [IsTrans α r] {l₁ l₂ : List α} (h : l₁ <+ l₂) :
    List.insertionSort r l₁ <+ List.insertionSort r l₂ := by
  induction h with
  | slnil => exact List.Sublist.refl _
  | cons a h ih => exact ih.trans (List.sublist_orderedInsert a _)
  | cons₂ a h ih => exact List.Sublist.orderedInsert_sublist a ih (List.sorted_insertionSort r _)

/-- C10.  Raising the watermark can only drop records: for `t1 ≤ t2` the
read at `t2` is a subsequence of the read at `t1`, and a watermark at or
above every stored timestamp yields the empty read. -/
theorem read_since_antitone (s : Store) (t1 t2 : Nat) (h : t1 ≤ t2) :
    get_changes_since_last_report s t2 <+ get_changes_since_last_report s t1 ∧
    ((∀ c ∈ allRecords s, c.timestamp ≤ t2) → get_changes_since_last_report s t2 = []) := by
  constructor
  · unfold get_changes_since_last_report
    refine insertionSort_sublist_of_sublist tsLE (List.monotone_filter_right _ ?_)
    intro c hc
    simp only [decide_eq_true_eq] at hc ⊢
    omega
  · intro hall
    unfold get_changes_since_last_report
    have hnil : (allRecords s).filter (fun c => decide (t2 < c.timestamp)) = [] := by
      rw [List.filter_eq_nil_iff]
      intro c hc
      simpa using Nat.not_lt.mpr (hall c hc)
    rw [hnil]
    rfl

theorem read_since_antitone_witness :
    get_changes_since_last_report [(0, [⟨4, "created", "/z", false, none⟩])] 5 <+
      get_changes_since_last_report [(0, [⟨4, "created", "/z", false, none⟩])] 0 ∧
    get_changes_since_last_report [(0, [⟨4, "created", "/z", false, none⟩])] 5 = [] :=
  ⟨(read_since_antitone [(0, [⟨4, "created", "/z", false, none⟩])] 0 5 (by decide)).1,
   (read_since_antitone [(0, [⟨4, "created", "/z", false, none⟩])] 0 5 (by decide)).2
     (by decide)⟩

/-! ## Exceptions during reporting and the main loop (C5) -/

/-- C5, counterexample.  An unexpected exception during report generation is
not caught at the top level: `_report_scheduler` runs on its own daemon
thread with no `try/except` on its stack, so the exception leaves the thread
unhandled, `stop()` never runs, and the observer of a running monitor stays
unstopped. -/
theorem report_exception_not_caught :
    (afterReportGenerationExn ⟨true, true, false, []⟩ "boom").2 =
      ThreadResult.unhandled "boom" ∧
    (afterReportGenerationExn ⟨true, true, false, []⟩ "boom").1.observerStopped = false ∧
    (afterReportGenerationExn ⟨true, true, false, []⟩ "boom").1.running = true := by
  decide

/-- C5, amended.  An unexpected exception during the main loop is caught at
the top level of `start`, its message is printed, and monitoring stops
cleanly (running flag cleared, observer stopped); an unexpected exception
during report generation, however, propagates out of the report scheduler
thread unhandled. -/
theorem main_loop_exception_handled (msg : String) (st : RunState)
    (hrun : st.running = true) (hobs : st.observerSome = true) :
    (startHandleOutcome (.exn msg) st).running = false ∧
    (startHandleOutcome (.exn msg) st).observerStopped = true ∧
    ("エラー: " ++ msg) ∈ (startHandleOutcome (.exn msg) st).printed ∧
    (afterReportGenerationExn st msg).2 = ThreadResult.unhandled msg := by
  simp [startHandleOutcome, stop, hrun, hobs, afterReportGenerationExn, reportThreadOutcome]

theorem main_loop_exception_handled_witness :
    (startHandleOutcome (.exn "boom") ⟨true, true, false, []⟩).running = false ∧
    (startHandleOutcome (.exn "boom") ⟨true, true, false, []⟩).observerStopped = true ∧
    ("エラー: " ++ "boom") ∈ (startHandleOutcome (.exn "boom") ⟨true, true, false, []⟩).printed ∧
    (afterReportGenerationExn ⟨true, true, false, []⟩ "boom").2 =
      ThreadResult.unhandled "boom" :=
  main_loop_exception_handled "boom" ⟨true, true, false, []⟩ rfl rfl

end FileMonitor

